import Mathlib

/-!
Shallow embedding of the OneAgent reconciliation controller
(`pkg/controller/oneagent/oneagent_controller.go`).

The controller's collaborators (the cluster state store, the vendor API
client, and helper functions defined in other files of the repository,
such as `getPodsToRestart`, `getPodReadyState` and `hasSpecChanged`) are
modelled as explicit parameters: each store call's outcome is an input to
the embedded function, so the embedding is a pure function of the
instance, the call responses and the helper functions.
-/

/-- Pod phase (`corev1.PodPhase`); the controller only distinguishes
`Running` from everything else. -/
inductive PodPhase where
  | running
  | pending
  | succeeded
  | failed
  | unknown
deriving DecidableEq, Repr

/-- The fields of a pod the controller reads: `ObjectMeta.Name`,
`Spec.NodeName`, `Status.Phase`. -/
structure Pod where
  name : String
  nodeName : String
  phase : PodPhase
deriving DecidableEq, Repr

/-- `corev1.SecretKeySelector` restricted to the fields the controller sets. -/
structure SecretKeySelector where
  name : String
  key : String
deriving DecidableEq, Repr

/-- `corev1.EnvVar` restricted to the fields the controller reads and writes. -/
structure EnvVar where
  name : String
  valueFrom : Option SecretKeySelector
deriving DecidableEq, Repr

/-- One entry of `status.items`: the per-pod record `{node, version, ready}`
keyed by pod identity. -/
structure InstanceItem where
  podName : String
  node : String
  version : String
  ready : Bool
deriving DecidableEq, Repr

/-- `OneAgentStatus`: recorded version, last-update timestamp
(`metav1.Time` modelled as a natural number), and the per-pod map. -/
structure OneAgentStatus where
  version : String
  updatedTimestamp : Nat
  items : List InstanceItem
deriving DecidableEq, Repr

/-- The Go zero value `dynatracev1alpha1.OneAgentStatus{}` used as the
placeholder during `updateCR`. -/
def emptyStatus : OneAgentStatus :=
  { version := "", updatedTimestamp := 0, items := [] }

/-- `OneAgentSpec` restricted to the fields this controller file reads.
`WaitReadySeconds` is a `*uint16` in the source; its dereferenced value is
modelled as a natural number and reduced mod 2^16 where the loop uses it. -/
structure OneAgentSpec where
  apiUrl : String
  tokens : String
  image : String
  env : List EnvVar
  disableAgentUpdate : Bool
  enableIstio : Bool
  skipCertCheck : Bool
  waitReadySeconds : Nat
deriving DecidableEq, Repr

/-- The custom resource: identity, spec and status. -/
structure OneAgent where
  name : String
  namespc : String
  spec : OneAgentSpec
  status : OneAgentStatus
deriving DecidableEq, Repr

/-- Outcome of a store write/delete call (`client.Update`, `client.Delete`,
`client.List`, ...): `notFound` is the error `errors.IsNotFound` accepts,
`internal` is any other failure. -/
inductive StoreErr where
  | notFound
  | internal
deriving DecidableEq, Repr

/-- `updateCR` (`oneagent_controller.go:295-317`).  The store's spec-update
and status-update calls are modelled by their outcomes `updateResp` and
`statusUpdateResp` (`none` = success); `now` is the value of
`metav1.Now()`.  Returns the error result together with the in-memory
instance as it stands when the function returns. -/
def updateCR (now : Nat) (updateResp statusUpdateResp : Option StoreErr)
    (oa : OneAgent) : Option StoreErr × OneAgent :=
  -- instance.Status.UpdatedTimestamp = metav1.Now()
  let inst1 : OneAgent :=
    { oa with status := { oa.status with updatedTimestamp := now } }
  -- newStatus := instance.Status
  let newStatus := inst1.status
  -- instance.Status = dynatracev1alpha1.OneAgentStatus{}
  let inst2 : OneAgent := { inst1 with status := emptyStatus }
  match updateResp with
  | some e => (some e, inst2)          -- if err := r.client.Update(...); err != nil { return err }
  | none =>
      -- instance.Status = newStatus
      let inst3 : OneAgent := { inst2 with status := newStatus }
      -- return r.client.Status().Update(...)
      (statusUpdateResp, inst3)

/-- A concrete instance used by the concrete-input theorems below. -/
def oaSample : OneAgent :=
  { name := "oneagent", namespc := "dynatrace",
    spec := { apiUrl := "https://env.live.dynatrace.com/api", tokens := "oneagent",
              image := "docker.io/dynatrace/oneagent", env := [],
              disableAgentUpdate := false, enableIstio := false,
              skipCertCheck := false, waitReadySeconds := 300 },
    status := { version := "1.0.0", updatedTimestamp := 3, items := [] } }

/-- C1, counterexample.  When the first (spec-update) write fails, `updateCR`
returns the error but the in-memory status is the empty placeholder, not the
saved pre-call status stamped with the new timestamp: the claimed restoration
does not happen on this path. -/
theorem updateCR_first_write_failure_leaves_placeholder :
    (updateCR 7 (some StoreErr.internal) none oaSample).1 = some StoreErr.internal
    ∧ (updateCR 7 (some StoreErr.internal) none oaSample).2.status = emptyStatus
    ∧ emptyStatus ≠ { version := "1.0.0", updatedTimestamp := 7, items := [] } := by
  refine ⟨rfl, rfl, ?_⟩
  decide

/-- C1, amended.  `persist` fails whenever either write fails; on a
status-only (second) write failure the in-memory status holds the saved
pre-call value stamped with the new timestamp, but on a spec-update (first)
write failure the in-memory status is left as the empty placeholder. -/
theorem updateCR_failure_paths (now : Nat) (r2 : Option StoreErr)
    (oa : OneAgent) (e : StoreErr) :
    updateCR now (some e) r2 oa = (some e, { oa with status := emptyStatus })
    ∧ updateCR now none (some e) oa
        = (some e, { oa with status := { oa.status with updatedTimestamp := now } }) := by
  constructor <;> rfl

/-- `splayTimeSeconds` (`oneagent_controller.go:37`): the fixed delay between
consecutive readiness polls, a `uint16`. -/
def splayTimeSeconds : Nat := 10

/-- The filter inside a readiness poll (`oneagent_controller.go:454-462`):
keep a pod unless it is on another node, not in the `Running` phase, or is
the deleted pod itself. -/
def foundPodsOnNode (pod : Pod) (items : List Pod) : List Pod :=
  items.filter fun p =>
    !(p.nodeName != pod.nodeName || p.phase != PodPhase.running || p.name == pod.name)

/-- The `status` error values `waitPodReadyState` can record
(`oneagent_controller.go:449,465,469`). -/
inductive WaitErr where
  | listFailed (e : StoreErr)
  | notRecreated (node : String)
  | tooManyPods (n : Nat)
deriving DecidableEq, Repr

/-- What one iteration of the `waitPodReadyState` loop does with the store's
answer: `breakLoop` exits the loop (with the `status` variable holding `nil`,
set by the successful list call), `cont st` continues to the next iteration
with `status` equal to `st`. -/
inductive PollOutcome where
  | breakLoop
  | cont (status : Option WaitErr)
deriving DecidableEq, Repr

/-- The body of one poll (`oneagent_controller.go:448-470`): list the pods
(`resp` is the store's answer for this iteration), filter to candidates on
the deleted pod's node, and branch on the candidate count `n`.
`getPodReadyState` (defined in another file of the repository) is a
parameter. -/
def pollOnce (getPodReadyState : Pod → Bool) (pod : Pod)
    (resp : Except StoreErr (List Pod)) : PollOutcome :=
  match resp with
  | Except.error e => PollOutcome.cont (some (WaitErr.listFailed e))   -- status != nil: continue
  | Except.ok items =>
      match foundPodsOnNode pod items with
      | [] => PollOutcome.cont (some (WaitErr.notRecreated pod.nodeName))   -- n == 0
      | [p] =>    -- n == 1
          if getPodReadyState p then PollOutcome.breakLoop
          else PollOutcome.cont none   -- status stays nil from the successful list
      | ps => PollOutcome.cont (some (WaitErr.tooManyPods ps.length))   -- n > 1

/-- The `for splay := uint16(0); splay < *instance.Spec.WaitReadySeconds;
splay += splayTimeSeconds` loop of `waitPodReadyState`
(`oneagent_controller.go:439-471`).  `listResp j` is the store's answer to
the list call of iteration `j`; `k` counts polls performed so far; `splay`
and `wait` are the `uint16` loop counter and bound (kept below 2^16 by the
explicit `% 65536`); `status` is the loop's `status` variable.  `fuel`
bounds the recursion: the result is `none` when `fuel` iterations were not
enough for the loop to terminate, and `some (status, polls)` when the loop
exits (by its condition or by `break`) returning `status` after `polls`
polls. -/
def waitPodReadyStateAux (getPodReadyState : Pod → Bool)
    (listResp : Nat → Except StoreErr (List Pod)) (pod : Pod) (wait : Nat) :
    Nat → Nat → Nat → Option WaitErr → Option (Option WaitErr × Nat)
  | fuel, k, splay, status =>
      if splay < wait then
        match fuel with
        | 0 => none
        | fuel + 1 =>
            -- time.Sleep(splayTimeSeconds); then list and branch
            match pollOnce getPodReadyState pod (listResp k) with
            | PollOutcome.breakLoop => some (none, k + 1)
            | PollOutcome.cont st =>
                waitPodReadyStateAux getPodReadyState listResp pod wait
                  fuel (k + 1) ((splay + splayTimeSeconds) % 65536) st
      else
        some (status, k)

/-- `waitPodReadyState` (`oneagent_controller.go:430-473`): run the polling
loop from `splay = 0` with `status = nil`; the loop bound is the
dereferenced `*uint16` field `WaitReadySeconds`. -/
def waitPodReadyState (getPodReadyState : Pod → Bool)
    (listResp : Nat → Except StoreErr (List Pod)) (oa : OneAgent) (pod : Pod)
    (fuel : Nat) : Option (Option WaitErr × Nat) :=
  waitPodReadyStateAux getPodReadyState listResp pod
    (oa.spec.waitReadySeconds % 65536) fuel 0 0 none

/-- The error `deletePods`/`reconcileVersion` surface from the rollout:
either a failed delete call or a failed wait. -/
inductive RolloutErr where
  | deleteFailed (e : StoreErr)
  | waitFailed (e : WaitErr)
deriving DecidableEq, Repr

/-- `deletePods` (`oneagent_controller.go:407-428`): for each pod in order,
delete it (`delResp pod` is the store's outcome) and, on success, wait for
its replacement (`waitFn pod` abstracts the outcome of
`r.waitPodReadyState(instance, pod)`, whose polling behaviour is modelled
above); stop at the first error.  Besides the error result, the model
returns the list of pods whose delete call succeeded, in order, so that
theorems can speak about which pods were deleted. -/
def deletePods (delResp : Pod → Option StoreErr) (waitFn : Pod → Option WaitErr) :
    List Pod → Option RolloutErr × List Pod
  | [] => (none, [])
  | pod :: pods =>
      match delResp pod with
      | some e => (some (RolloutErr.deleteFailed e), [])
      | none =>
          match waitFn pod with
          | some e => (some (RolloutErr.waitFailed e), [pod])
          | none =>
              let rest := deletePods delResp waitFn pods
              (rest.1, pod :: rest.2)

/-- An error surfaced by the tick: a store failure or a rollout failure. -/
inductive TickErr where
  | storeErr (e : StoreErr)
  | rolloutErr (e : RolloutErr)
deriving DecidableEq, Repr

/-- `reconcile.Result`: `requeue` is the `Requeue` flag, `requeueAfter` the
`RequeueAfter` duration in seconds (`0` = none requested). -/
structure ReconcileResult where
  requeue : Bool := false
  requeueAfter : Nat := 0
deriving DecidableEq, Repr

/-- One minute, in seconds. -/
def minute : Nat := 60

/-- `reconcileVersion` (`oneagent_controller.go:248-293`).
`dtcVersionResp` is the outcome of `dtc.GetVersionForLatest`;
`podListResp` the outcome of the pod list call; `getPodsToRestart`
(defined in another file of the repository) is a parameter returning the
pods to delete and the new per-pod status items; `delResp`/`waitFn` feed
the `deletePods` model.  Returns `(updateCR, error)` and the in-memory
instance. -/
def reconcileVersion (dtcVersionResp : Except Unit String)
    (podListResp : Except StoreErr (List Pod))
    (getPodsToRestart : List Pod → OneAgent → List Pod × List InstanceItem)
    (delResp : Pod → Option StoreErr) (waitFn : Pod → Option WaitErr)
    (oa : OneAgent) : (Bool × Option TickErr) × OneAgent :=
  match dtcVersionResp with
  | Except.error _ => ((false, none), oa)   -- log "failed to get desired version"; return false, nil
  | Except.ok desired =>
      let step1 : Bool × OneAgent :=
        if desired ≠ "" ∧ oa.status.version ≠ desired then
          (true, { oa with status := { oa.status with version := desired } })
        else (false, oa)
      match podListResp with
      | Except.error e => ((step1.1, some (TickErr.storeErr e)), step1.2)
      | Except.ok items =>
          let restart := getPodsToRestart items step1.2
          let step2 : Bool × OneAgent :=
            if restart.2 ≠ step1.2.status.items then
              (true, { step1.2 with
                        status := { step1.2.status with items := restart.2 } })
            else (step1.1, step1.2)
          match (deletePods delResp waitFn restart.1).1 with
          | some e => ((step2.1, some (TickErr.rolloutErr e)), step2.2)
          | none => ((step2.1, none), step2.2)

/-- The tail of `Reconcile` from the update-disabled check onward
(`oneagent_controller.go:161-179`): if `DisableAgentUpdate` is set, return
the empty result and no error; otherwise run `reconcileVersion`, surface
its error with an empty result, persist via `updateCR` when it asks for a
CR update (5-minute requeue on success), and otherwise end the tick with
the 30-minute requeue. -/
def reconcileFromUpdateCheck (dtcVersionResp : Except Unit String)
    (podListResp : Except StoreErr (List Pod))
    (getPodsToRestart : List Pod → OneAgent → List Pod × List InstanceItem)
    (delResp : Pod → Option StoreErr) (waitFn : Pod → Option WaitErr)
    (now : Nat) (updateResp statusUpdateResp : Option StoreErr)
    (oa : OneAgent) : (ReconcileResult × Option TickErr) × OneAgent :=
  if oa.spec.disableAgentUpdate then
    (({}, none), oa)   -- return reconcile.Result{}, nil
  else
    let step := reconcileVersion dtcVersionResp podListResp getPodsToRestart
      delResp waitFn oa
    match step.1.2 with
    | some e => (({}, some e), step.2)   -- return reconcile.Result{}, err
    | none =>
        if step.1.1 then
          match updateCR now updateResp statusUpdateResp step.2 with
          | (some e, oa2) => (({}, some (TickErr.storeErr e)), oa2)
          | (none, oa2) => (({ requeueAfter := 5 * minute }, none), oa2)
        else
          (({ requeueAfter := 30 * minute }, none), oa)

/-- The env var `reconcileRollout` prepends
(`oneagent_controller.go:187-193`). -/
def installerTokenEnvVar (tokens : String) : EnvVar :=
  { name := "ONEAGENT_INSTALLER_TOKEN",
    valueFrom := some { name := tokens, key := "paasToken" } }

/-- `reconcileRollout` (`oneagent_controller.go:182-227`).  The unguarded
read `instance.Spec.Env[0]` panics in Go when the env list is empty; the
model returns `none` exactly there.  `specChanged` abstracts the outcome of
`hasSpecChanged` (defined in another file of the repository); `setRefErr`
the outcome of `controllerutil.SetControllerReference`; `dsGetResp`,
`createResp` and `updateResp` the outcomes of the store calls on the
daemonset.  On completion, returns `(updateCR, error)` and the in-memory
instance. -/
def reconcileRollout (specChanged : Bool) (setRefErr : Option StoreErr)
    (dsGetResp : Except StoreErr Unit) (createResp updateResp : Option StoreErr)
    (oa : OneAgent) : Option ((Bool × Option TickErr) × OneAgent) :=
  match oa.spec.env with
  | [] => none   -- instance.Spec.Env[0] : index out of range, panic
  | e0 :: rest =>
      let step1 : Bool × OneAgent :=
        if e0.name ≠ "ONEAGENT_INSTALLER_TOKEN" then
          (true, { oa with spec := { oa.spec with
                     env := installerTokenEnvVar oa.spec.tokens :: e0 :: rest } })
        else (false, oa)
      match setRefErr with
      | some e => some ((false, some (TickErr.storeErr e)), step1.2)
      | none =>
          match dsGetResp with
          | Except.error StoreErr.notFound =>   -- create the daemonset
              match createResp with
              | some e => some ((false, some (TickErr.storeErr e)), step1.2)
              | none => some ((step1.1, none), step1.2)
          | Except.error e => some ((false, some (TickErr.storeErr e)), step1.2)
          | Except.ok _ =>
              if specChanged then
                match updateResp with
                | some e => some ((false, some (TickErr.storeErr e)), step1.2)
                | none => some ((step1.1, none), step1.2)
              else some ((step1.1, none), step1.2)

/-- `oaSample` with automatic update disabled. -/
def oaDisabled : OneAgent :=
  { oaSample with spec := { oaSample.spec with disableAgentUpdate := true } }

/-- C2, counterexample.  A tick reaching the update-disabled check with the
flag set returns the empty `reconcile.Result{}` — `RequeueAfter = 0`, no
requeue — not a 30-minute re-tick request. -/
theorem reconcile_disabled_no_requeue_cex :
    (reconcileFromUpdateCheck (Except.ok "2.0") (Except.ok []) (fun _ _ => ([], []))
        (fun _ => none) (fun _ => none) 0 none none oaDisabled).1
      = ({ requeue := false, requeueAfter := 0 }, none)
    ∧ (0 : Nat) ≠ 30 * minute := by
  exact ⟨rfl, by decide⟩

/-- C2, amended.  If automatic update is disabled, the tick ends immediately
with no error, performs no version convergence (the instance is returned
unchanged and no store call outcome matters), and requests no re-tick: the
result is the empty `reconcile.Result{}`, not a 30-minute delay. -/
theorem reconcile_disabled_ends_with_empty_result
    (dtcVersionResp : Except Unit String) (podListResp : Except StoreErr (List Pod))
    (getPodsToRestart : List Pod → OneAgent → List Pod × List InstanceItem)
    (delResp : Pod → Option StoreErr) (waitFn : Pod → Option WaitErr)
    (now : Nat) (updateResp statusUpdateResp : Option StoreErr) (oa : OneAgent)
    (h : oa.spec.disableAgentUpdate = true) :
    reconcileFromUpdateCheck dtcVersionResp podListResp getPodsToRestart delResp waitFn
        now updateResp statusUpdateResp oa
      = (({ requeue := false, requeueAfter := 0 }, none), oa) := by
  simp [reconcileFromUpdateCheck, h]

/-- C2, witness: the amended theorem applied at a concrete disabled instance. -/
theorem reconcile_disabled_ends_with_empty_result_witness :
    reconcileFromUpdateCheck (Except.ok "2.0") (Except.ok []) (fun _ _ => ([], []))
        (fun _ => none) (fun _ => none) 0 none none oaDisabled
      = (({ requeue := false, requeueAfter := 0 }, none), oaDisabled) :=
  reconcile_disabled_ends_with_empty_result (Except.ok "2.0") (Except.ok [])
    (fun _ _ => ([], [])) (fun _ => none) (fun _ => none) 0 none none oaDisabled rfl

/-- A stale pod used by the concrete-input theorems. -/
def podA : Pod := { name := "p0", nodeName := "a", phase := PodPhase.running }

/-- C3, counterexample.  A delete call that reports not-found makes
`deletePods` return that error at once — the pod's replacement is not
awaited and the deletion is not treated as a success. -/
theorem deletePods_notFound_is_error :
    deletePods (fun _ => some StoreErr.notFound) (fun _ => none) [podA]
      = (some (RolloutErr.deleteFailed StoreErr.notFound), []) := rfl

/-- C3, amended.  Any failure of the store's delete call — the not-found
outcome included, which the code does not special-case — aborts `deletePods`
with that error: no wait is entered for the pod and no later pod is
processed. -/
theorem deletePods_any_delete_error_aborts (delResp : Pod → Option StoreErr)
    (waitFn : Pod → Option WaitErr) (pod : Pod) (pods : List Pod) (e : StoreErr)
    (h : delResp pod = some e) :
    deletePods delResp waitFn (pod :: pods)
      = (some (RolloutErr.deleteFailed e), []) := by
  simp [deletePods, h]

/-- C3, witness: the amended theorem applied at a concrete not-found delete. -/
theorem deletePods_any_delete_error_aborts_witness :
    deletePods (fun _ => some StoreErr.notFound) (fun _ => none) (podA :: [])
      = (some (RolloutErr.deleteFailed StoreErr.notFound), []) :=
  deletePods_any_delete_error_aborts (fun _ => some StoreErr.notFound)
    (fun _ => none) podA [] StoreErr.notFound rfl

/-- C7.  When the vendor API's latest-version query fails,
`reconcileVersion` returns `(false, nil)` at once — the status version is
left unchanged and no status update is requested for that cause — and the
tick, absent other triggers, ends with the 30-minute requeue and no error. -/
theorem reconcileVersion_query_failure_nonfatal
    (podListResp : Except StoreErr (List Pod))
    (getPodsToRestart : List Pod → OneAgent → List Pod × List InstanceItem)
    (delResp : Pod → Option StoreErr) (waitFn : Pod → Option WaitErr)
    (now : Nat) (updateResp statusUpdateResp : Option StoreErr) (oa : OneAgent)
    (h : oa.spec.disableAgentUpdate = false) :
    reconcileVersion (Except.error ()) podListResp getPodsToRestart delResp waitFn oa
      = ((false, none), oa)
    ∧ reconcileFromUpdateCheck (Except.error ()) podListResp getPodsToRestart
        delResp waitFn now updateResp statusUpdateResp oa
      = (({ requeue := false, requeueAfter := 30 * minute }, none), oa) := by
  refine ⟨rfl, ?_⟩
  simp [reconcileFromUpdateCheck, reconcileVersion, h]

/-- C7, witness: the theorem applied at a concrete instance with the query
failing. -/
theorem reconcileVersion_query_failure_nonfatal_witness :
    reconcileVersion (Except.error ()) (Except.ok []) (fun _ _ => ([], []))
        (fun _ => none) (fun _ => none) oaSample
      = ((false, none), oaSample)
    ∧ reconcileFromUpdateCheck (Except.error ()) (Except.ok []) (fun _ _ => ([], []))
        (fun _ => none) (fun _ => none) 0 none none oaSample
      = (({ requeue := false, requeueAfter := 30 * minute }, none), oaSample) :=
  reconcileVersion_query_failure_nonfatal (Except.ok []) (fun _ _ => ([], []))
    (fun _ => none) (fun _ => none) 0 none none oaSample rfl

/-- C10.  `reconcileRollout` reads `instance.Spec.Env[0]` before anything
else; the read is out of bounds — the model's panic value `none` — exactly
when the instance's env list is empty, whatever every collaborator outcome
is, so the step is total only under the precondition that the env list is
non-empty. -/
theorem reconcileRollout_none_iff_env_empty (specChanged : Bool)
    (setRefErr : Option StoreErr) (dsGetResp : Except StoreErr Unit)
    (createResp updateResp : Option StoreErr) (oa : OneAgent) :
    reconcileRollout specChanged setRefErr dsGetResp createResp updateResp oa = none
      ↔ oa.spec.env = [] := by
  cases h : oa.spec.env with
  | nil => simp [reconcileRollout, h]
  | cons e0 rest =>
      simp only [reconcileRollout, h]
      constructor
      · intro hc
        exfalso
        rcases setRefErr with _ | e
        · rcases dsGetResp with e' | u
          · cases e' <;> rcases createResp with _ | c <;> simp_all
          · by_cases hs : specChanged <;> rcases updateResp with _ | u2 <;> simp_all
        · simp_all
      · intro hc
        exact absurd hc (List.cons_ne_nil e0 rest)

/-- The pods whose delete call succeeded form a prefix of the input list. -/
theorem deletePods_deleted_list_eq_take (delResp : Pod → Option StoreErr)
    (waitFn : Pod → Option WaitErr) :
    ∀ pods, ∃ t, (deletePods delResp waitFn pods).2 ++ t = pods := by
  intro pods
  induction pods with
  | nil => exact ⟨[], rfl⟩
  | cons pod rest ih =>
      cases hd : delResp pod with
      | some e => exact ⟨pod :: rest, by simp [deletePods, hd]⟩
      | none =>
          cases hw : waitFn pod with
          | some e => exact ⟨rest, by simp [deletePods, hd, hw]⟩
          | none =>
              obtain ⟨t, ht⟩ := ih
              exact ⟨t, by simp [deletePods, hd, hw, ht]⟩

/-- Every deleted pod except possibly the last had a successful delete and a
successful wait: the next pod is only reached after both. -/
theorem deletePods_deleted_all_waited (delResp : Pod → Option StoreErr)
    (waitFn : Pod → Option WaitErr) :
    ∀ pods i p, i + 1 < (deletePods delResp waitFn pods).2.length →
      (deletePods delResp waitFn pods).2[i]? = some p →
      delResp p = none ∧ waitFn p = none := by
  intro pods
  induction pods with
  | nil => intro i p h _; simp [deletePods] at h
  | cons pod rest ih =>
      intro i p hlen hget
      cases hd : delResp pod with
      | some e => simp [deletePods, hd] at hlen
      | none =>
          cases hw : waitFn pod with
          | some e => simp [deletePods, hd, hw] at hlen
          | none =>
              simp only [deletePods, hd, hw] at hlen hget
              cases i with
              | zero =>
                  simp at hget
                  subst hget
                  exact ⟨hd, hw⟩
              | succ j =>
                  simp only [List.getElem?_cons_succ] at hget
                  simp only [List.length_cons] at hlen
                  exact ih j p (by omega) hget

/-- If the wait for one pod's node fails, `deletePods` stops there: the
pods deleted are exactly the ones up to and including that pod. -/
theorem deletePods_halts_on_wait_failure (delResp : Pod → Option StoreErr)
    (waitFn : Pod → Option WaitErr) :
    ∀ before pod after e,
      (∀ q, q ∈ before → delResp q = none ∧ waitFn q = none) →
      delResp pod = none → waitFn pod = some e →
      deletePods delResp waitFn (before ++ pod :: after)
        = (some (RolloutErr.waitFailed e), before ++ [pod]) := by
  intro before
  induction before with
  | nil =>
      intro pod after e _ hd hw
      simp [deletePods, hd, hw]
  | cons b bs ih =>
      intro pod after e hok hd hw
      obtain ⟨hbd, hbw⟩ := hok b (by simp)
      have hrec := ih pod after e (fun q hq => hok q (by simp [hq])) hd hw
      simp [deletePods, hbd, hbw, hrec]

/-- C9.  Stale pods are replaced strictly one at a time in list order: the
deleted pods always form a prefix of the stale list; every deleted pod
before the last had its delete and its node's wait succeed before the next
pod was touched; and when a pod's wait fails, the deleted pods are exactly
the list up to and including that pod — no later pod is ever deleted in
that rollout invocation. -/
theorem deletePods_sequential_rollout (delResp : Pod → Option StoreErr)
    (waitFn : Pod → Option WaitErr) :
    (∀ pods, ∃ t, (deletePods delResp waitFn pods).2 ++ t = pods)
    ∧ (∀ pods i p, i + 1 < (deletePods delResp waitFn pods).2.length →
        (deletePods delResp waitFn pods).2[i]? = some p →
        delResp p = none ∧ waitFn p = none)
    ∧ (∀ before pod after e,
        (∀ q, q ∈ before → delResp q = none ∧ waitFn q = none) →
        delResp pod = none → waitFn pod = some e →
        deletePods delResp waitFn (before ++ pod :: after)
          = (some (RolloutErr.waitFailed e), before ++ [pod])) :=
  ⟨deletePods_deleted_list_eq_take delResp waitFn,
   deletePods_deleted_all_waited delResp waitFn,
   deletePods_halts_on_wait_failure delResp waitFn⟩

/-- If every poll's outcome preserves `Inv` and no poll breaks the loop,
then whatever `status` error the loop exits with satisfies `Inv`, provided
the loop either runs at least once or entered with `Inv status`. -/
theorem waitAux_exit_invariant (getPodReadyState : Pod → Bool)
    (listResp : Nat → Except StoreErr (List Pod)) (pod : Pod) (wait : Nat)
    (Inv : Option WaitErr → Prop)
    (hcont : ∀ j st, pollOnce getPodReadyState pod (listResp j) = PollOutcome.cont st →
      Inv st)
    (hnb : ∀ j, pollOnce getPodReadyState pod (listResp j) ≠ PollOutcome.breakLoop) :
    ∀ fuel k splay status res m,
      waitPodReadyStateAux getPodReadyState listResp pod wait fuel k splay status
        = some (res, m) →
      (splay < wait ∨ Inv status) → Inv res := by
  intro fuel
  induction fuel with
  | zero =>
      intro k splay status res m h hd
      unfold waitPodReadyStateAux at h
      by_cases hs : splay < wait
      · simp [hs] at h
      · simp [hs] at h
        rcases hd with hd | hd
        · exact absurd hd hs
        · exact h.1 ▸ hd
  | succ n ih =>
      intro k splay status res m h hd
      unfold waitPodReadyStateAux at h
      by_cases hs : splay < wait
      · simp only [hs, if_true] at h
        cases hp : pollOnce getPodReadyState pod (listResp k) with
        | breakLoop => exact absurd hp (hnb k)
        | cont st =>
            rw [hp] at h
            exact ih (k + 1) _ st res m h (Or.inr (hcont k st hp))
      · simp [hs] at h
        rcases hd with hd | hd
        · exact absurd hd hs
        · exact h.1 ▸ hd

/-- A poll whose candidate set is not a singleton always records an error
in `status` and never breaks the loop. -/
theorem pollOnce_not_single (getPodReadyState : Pod → Bool) (pod : Pod)
    (resp : Except StoreErr (List Pod))
    (h : ∀ l, resp = Except.ok l → (foundPodsOnNode pod l).length ≠ 1) :
    ∃ e, pollOnce getPodReadyState pod resp = PollOutcome.cont (some e) := by
  cases resp with
  | error e => exact ⟨WaitErr.listFailed e, by simp [pollOnce]⟩
  | ok l =>
      cases hl : foundPodsOnNode pod l with
      | nil => exact ⟨WaitErr.notRecreated pod.nodeName, by simp [pollOnce, hl]⟩
      | cons p tl =>
          cases tl with
          | nil => exact absurd (by simp [hl]) (h l rfl)
          | cons q tl2 =>
              exact ⟨WaitErr.tooManyPods (p :: q :: tl2).length, by simp [pollOnce, hl]⟩

/-- C5, amended.  If the polling loop exits without any poll ever observing
exactly one running candidate on the node (so success was never reached)
and the timeout bound is positive, `waitPodReadyState` returns a non-nil
error.  (As the counterexample records, the claim's unrestricted form is
false: with `T = 0` the loop body never runs and `nil` is returned, and a
final poll observing one running-but-not-ready candidate also clears the
error.) -/
theorem waitPodReadyState_timeout_error_when_never_single
    (getPodReadyState : Pod → Bool) (listResp : Nat → Except StoreErr (List Pod))
    (oa : OneAgent) (pod : Pod) (fuel : Nat) (res : Option WaitErr) (m : Nat)
    (hT : 0 < oa.spec.waitReadySeconds % 65536)
    (h1 : ∀ k l, listResp k = Except.ok l → (foundPodsOnNode pod l).length ≠ 1)
    (h : waitPodReadyState getPodReadyState listResp oa pod fuel = some (res, m)) :
    res ≠ none := by
  have key : ∀ j, ∃ e, pollOnce getPodReadyState pod (listResp j)
      = PollOutcome.cont (some e) :=
    fun j => pollOnce_not_single getPodReadyState pod (listResp j)
      (fun l hl => h1 j l hl)
  have hcont : ∀ j st, pollOnce getPodReadyState pod (listResp j)
      = PollOutcome.cont st → st ≠ none := by
    intro j st hp
    obtain ⟨e, he⟩ := key j
    rw [hp] at he
    injection he with h2
    subst h2
    simp
  have hnb : ∀ j, pollOnce getPodReadyState pod (listResp j)
      ≠ PollOutcome.breakLoop := by
    intro j hp
    obtain ⟨e, he⟩ := key j
    rw [hp] at he
    exact PollOutcome.noConfusion he
  exact waitAux_exit_invariant getPodReadyState listResp pod
    (oa.spec.waitReadySeconds % 65536) (fun st => st ≠ none) hcont hnb
    fuel 0 0 none res m h (Or.inl hT)

/-- `oaSample` with a zero readiness timeout. -/
def oaZeroWait : OneAgent :=
  { oaSample with spec := { oaSample.spec with waitReadySeconds := 0 } }

/-- C5, counterexample.  With timeout `T = 0` the loop body never runs, the
`status` variable keeps its initial `nil`, and `waitPodReadyState` returns
no error even though the success condition was never observed — against the
claim that every exhausted loop (including `T = 0`) yields a non-nil error. -/
theorem waitPodReadyState_zero_timeout_returns_nil :
    waitPodReadyState (fun _ => true) (fun _ => Except.ok []) oaZeroWait podA 5
      = some (none, 0) := rfl

/-- `oaSample` with a 10-second readiness timeout (one poll). -/
def oaTenWait : OneAgent :=
  { oaSample with spec := { oaSample.spec with waitReadySeconds := 10 } }

/-- C5, witness: the amended theorem applied to a one-poll run whose only
poll finds no replacement pod. -/
theorem waitPodReadyState_timeout_error_witness :
    (some (WaitErr.notRecreated "a") : Option WaitErr) ≠ none :=
  waitPodReadyState_timeout_error_when_never_single (fun _ => true)
    (fun _ => Except.ok []) oaTenWait podA 1 (some (WaitErr.notRecreated "a")) 1
    (by decide) (fun k l hl => by injection hl with h2; subst h2; decide) rfl

/-- C8.  The candidate set of a poll is exactly the pods on the deleted
pod's node, in the `Running` phase, with a different name; the poll breaks
the loop (ending the wait, as the loop-step conjunct shows) precisely when
that set is a singleton whose element passes the pod-level readiness
predicate. -/
theorem foundPods_filter_and_poll_success (getPodReadyState : Pod → Bool)
    (pod : Pod) (items : List Pod) :
    (∀ p, p ∈ foundPodsOnNode pod items ↔
        p ∈ items ∧ p.nodeName = pod.nodeName ∧ p.phase = PodPhase.running
          ∧ p.name ≠ pod.name)
    ∧ (pollOnce getPodReadyState pod (Except.ok items) = PollOutcome.breakLoop ↔
        ∃ p, foundPodsOnNode pod items = [p] ∧ getPodReadyState p = true)
    ∧ (∀ (listResp : Nat → Except StoreErr (List Pod)) (wait fuel k splay : Nat)
          (st : Option WaitErr), splay < wait → listResp k = Except.ok items →
        pollOnce getPodReadyState pod (Except.ok items) = PollOutcome.breakLoop →
        waitPodReadyStateAux getPodReadyState listResp pod wait (fuel + 1) k splay st
          = some (none, k + 1)) := by
  refine ⟨?_, ?_, ?_⟩
  · intro p
    simp only [foundPodsOnNode, List.mem_filter, Bool.not_eq_true', Bool.or_eq_false_iff,
      bne_eq_false_iff_eq, beq_eq_false_iff_ne, ne_eq, and_assoc]
  · cases hl : foundPodsOnNode pod items with
    | nil => simp [pollOnce, hl]
    | cons p tl =>
        cases tl with
        | nil =>
            by_cases hr : getPodReadyState p
            · simp [pollOnce, hl, hr]
            · simp [pollOnce, hl, hr]
        | cons q tl2 => simp [pollOnce, hl]
  · intro listResp wait fuel k splay st hs hk hp
    unfold waitPodReadyStateAux
    simp [hs, hk, hp]

/-- A poll observing two or more candidates records the too-many-pods error
in `status` and continues. -/
theorem pollOnce_too_many (getPodReadyState : Pod → Bool) (pod : Pod) (l : List Pod)
    (h : 2 ≤ (foundPodsOnNode pod l).length) :
    pollOnce getPodReadyState pod (Except.ok l)
      = PollOutcome.cont (some (WaitErr.tooManyPods (foundPodsOnNode pod l).length)) := by
  cases hl : foundPodsOnNode pod l with
  | nil => rw [hl] at h; simp at h
  | cons p tl =>
      cases tl with
      | nil => rw [hl] at h; simp at h
      | cons q tl2 => simp [pollOnce, hl]

/-- C4, amended.  A poll that observes more than one running candidate on
the node records the "too many pods" error but does not stop the loop: the
next iteration still runs; the error is surfaced — halting the rollout —
only if the loop then exhausts its bound with such an error still recorded
(in particular when every poll keeps observing more than one candidate),
while a later successful poll clears it and the wait succeeds. -/
theorem waitPodReadyState_too_many_keeps_polling
    (getPodReadyState : Pod → Bool) (listResp : Nat → Except StoreErr (List Pod))
    (pod : Pod) (wait : Nat) :
    (∀ fuel k splay st l,
        splay < wait → listResp k = Except.ok l →
        2 ≤ (foundPodsOnNode pod l).length →
        waitPodReadyStateAux getPodReadyState listResp pod wait (fuel + 1) k splay st
          = waitPodReadyStateAux getPodReadyState listResp pod wait fuel (k + 1)
              ((splay + splayTimeSeconds) % 65536)
              (some (WaitErr.tooManyPods (foundPodsOnNode pod l).length)))
    ∧ (∀ fuel res m,
        0 < wait →
        (∀ k, ∃ l, listResp k = Except.ok l ∧ 2 ≤ (foundPodsOnNode pod l).length) →
        waitPodReadyStateAux getPodReadyState listResp pod wait fuel 0 0 none
          = some (res, m) →
        ∃ n, res = some (WaitErr.tooManyPods n) ∧ 2 ≤ n) := by
  constructor
  · intro fuel k splay st l hs hk hlen
    have hpoll := pollOnce_too_many getPodReadyState pod l hlen
    conv_lhs => unfold waitPodReadyStateAux
    simp [hs, hk, hpoll]
  · intro fuel res m hw hall h
    have hcont : ∀ j st, pollOnce getPodReadyState pod (listResp j)
        = PollOutcome.cont st →
        (∃ n, st = some (WaitErr.tooManyPods n) ∧ 2 ≤ n) := by
      intro j st hp
      obtain ⟨l, hl, hlen⟩ := hall j
      rw [hl, pollOnce_too_many getPodReadyState pod l hlen] at hp
      injection hp with h2
      subst h2
      exact ⟨(foundPodsOnNode pod l).length, rfl, hlen⟩
    have hnb : ∀ j, pollOnce getPodReadyState pod (listResp j)
        ≠ PollOutcome.breakLoop := by
      intro j hp
      obtain ⟨l, hl, hlen⟩ := hall j
      rw [hl, pollOnce_too_many getPodReadyState pod l hlen] at hp
      exact PollOutcome.noConfusion hp
    exact waitAux_exit_invariant getPodReadyState listResp pod wait
      (fun st => ∃ n, st = some (WaitErr.tooManyPods n) ∧ 2 ≤ n) hcont hnb
      fuel 0 0 none res m h (Or.inl hw)

/-- A running replacement pod on node `a`. -/
def podNew1 : Pod := { name := "p1", nodeName := "a", phase := PodPhase.running }

/-- A second running pod on node `a`. -/
def podNew2 : Pod := { name := "p2", nodeName := "a", phase := PodPhase.running }

/-- `oaSample` with a 20-second readiness timeout (two polls). -/
def oaTwentyWait : OneAgent :=
  { oaSample with spec := { oaSample.spec with waitReadySeconds := 20 } }

/-- Store answers: the first poll sees two pods on the node, later polls
see one. -/
def listRespTooManyThenOne : Nat → Except StoreErr (List Pod) :=
  fun k => if k = 0 then Except.ok [podNew1, podNew2] else Except.ok [podNew1]

/-- C4, counterexample.  The first poll observes two running pods on the
deleted pod's node (`n = 2 > 1`), yet the wait does not halt with a fatal
error: a second poll runs, observes a single ready candidate, and the wait
returns success (`nil` status after 2 polls) — so the rollout would proceed
to further stale pods. -/
theorem waitPodReadyState_succeeds_after_too_many :
    pollOnce (fun _ => true) podA (listRespTooManyThenOne 0)
      = PollOutcome.cont (some (WaitErr.tooManyPods 2))
    ∧ waitPodReadyState (fun _ => true) listRespTooManyThenOne oaTwentyWait podA 10
      = some (none, 2) := by
  exact ⟨rfl, rfl⟩

/-- Below the `uint16` wrap region the splay counter simply advances by 10:
the loop exits within `⌈(wait - splay)/10⌉` further polls, and any exit
happens within that many polls. -/
theorem waitAux_no_wrap_poll_bound (getPodReadyState : Pod → Bool)
    (listResp : Nat → Except StoreErr (List Pod)) (pod : Pod) (wait : Nat)
    (hw : wait ≤ 65530) :
    ∀ fuel k splay status, splay % 10 = 0 →
      ((wait ≤ splay + 10 * fuel →
        waitPodReadyStateAux getPodReadyState listResp pod wait fuel k splay status
          ≠ none)
      ∧ (∀ res m,
          waitPodReadyStateAux getPodReadyState listResp pod wait fuel k splay status
            = some (res, m) → m ≤ k + (wait - splay + 9) / 10)) := by
  intro fuel
  induction fuel with
  | zero =>
      intro k splay status hsp
      constructor
      · intro hle
        unfold waitPodReadyStateAux
        have hns : ¬ splay < wait := by omega
        simp [hns]
      · intro res m h
        unfold waitPodReadyStateAux at h
        by_cases hs : splay < wait
        · simp [hs] at h
        · simp [hs] at h
          omega
  | succ n ih =>
      intro k splay status hsp
      by_cases hs : splay < wait
      · have hsplay' : (splay + splayTimeSeconds) % 65536 = splay + 10 := by
          simp only [splayTimeSeconds]
          omega
        constructor
        · intro hle
          unfold waitPodReadyStateAux
          simp only [hs, if_true]
          cases hp : pollOnce getPodReadyState pod (listResp k) with
          | breakLoop => simp
          | cont st =>
              rw [hsplay']
              exact (ih (k + 1) (splay + 10) st (by omega)).1 (by omega)
        · intro res m h
          unfold waitPodReadyStateAux at h
          simp only [hs, if_true] at h
          cases hp : pollOnce getPodReadyState pod (listResp k) with
          | breakLoop =>
              rw [hp] at h
              simp at h
              omega
          | cont st =>
              rw [hp, hsplay'] at h
              have hb := (ih (k + 1) (splay + 10) st (by omega)).2 res m h
              omega
      · constructor
        · intro hle
          unfold waitPodReadyStateAux
          simp [hs]
        · intro res m h
          unfold waitPodReadyStateAux at h
          simp [hs] at h
          omega

/-- C6, amended.  For timeouts `T ≤ 65530` (no `uint16` wraparound of the
splay counter), the loop terminates within `⌈T/10⌉` polls — each preceded
by one splay-interval sleep — and every run performs at most `⌈T/10⌉`
polls.  (For `T` in `65531..65535` the counterexample shows the `uint16`
increment wraps and the claimed bound fails.) -/
theorem waitPodReadyState_poll_bound_no_wrap (getPodReadyState : Pod → Bool)
    (listResp : Nat → Except StoreErr (List Pod)) (oa : OneAgent) (pod : Pod)
    (fuel : Nat) (hw : oa.spec.waitReadySeconds % 65536 ≤ 65530) :
    ((oa.spec.waitReadySeconds % 65536 + 9) / 10 ≤ fuel →
      waitPodReadyState getPodReadyState listResp oa pod fuel ≠ none)
    ∧ (∀ res m, waitPodReadyState getPodReadyState listResp oa pod fuel
          = some (res, m) →
        m ≤ (oa.spec.waitReadySeconds % 65536 + 9) / 10) := by
  have h := waitAux_no_wrap_poll_bound getPodReadyState listResp pod
    (oa.spec.waitReadySeconds % 65536) hw fuel 0 0 none (by omega)
  constructor
  · intro hf
    exact h.1 (by omega)
  · intro res m hm
    have hb := h.2 res m hm
    omega

/-- C6, witness: the amended theorem applied to a 10-second timeout and one
unit of fuel — ⌈10/10⌉ = 1 poll suffices for the loop to exit. -/
theorem waitPodReadyState_poll_bound_no_wrap_witness :
    waitPodReadyState (fun _ => true) (fun _ => Except.ok []) oaTenWait podA 1
      ≠ none :=
  (waitPodReadyState_poll_bound_no_wrap (fun _ => true) (fun _ => Except.ok [])
      oaTenWait podA 1 (by decide)).1 (by decide)

/-- With the timeout at the `uint16` maximum 65535 and the store never
returning a candidate, the splay counter — always even, always below
65536 — never reaches the bound, so the loop never exits, whatever the
fuel. -/
theorem waitAux_wrap_never_exits (getPodReadyState : Pod → Bool)
    (listResp : Nat → Except StoreErr (List Pod)) (pod : Pod)
    (hE : ∀ j, listResp j = Except.ok []) :
    ∀ fuel k splay status, splay % 2 = 0 → splay < 65536 →
      waitPodReadyStateAux getPodReadyState listResp pod 65535 fuel k splay status
        = none := by
  have hst : splayTimeSeconds = 10 := rfl
  intro fuel
  induction fuel with
  | zero =>
      intro k splay status h2 h6
      unfold waitPodReadyStateAux
      have hs : splay < 65535 := by omega
      simp [hs]
  | succ n ih =>
      intro k splay status h2 h6
      unfold waitPodReadyStateAux
      have hs : splay < 65535 := by omega
      have hpoll : pollOnce getPodReadyState pod (listResp k)
          = PollOutcome.cont (some (WaitErr.notRecreated pod.nodeName)) := by
        rw [hE k]
        rfl
      simp only [hs, if_true, hpoll]
      exact ih (k + 1) ((splay + splayTimeSeconds) % 65536) _ (by omega) (by omega)

/-- `oaSample` with the readiness timeout at the `uint16` maximum. -/
def oaMaxWait : OneAgent :=
  { oaSample with spec := { oaSample.spec with waitReadySeconds := 65535 } }

/-- C6, counterexample.  For `T = 65535`, `⌈T/S⌉ = 6554`, yet after 6555
polls (fuel exhausted, result `none`) the loop has still not terminated:
the `uint16` splay counter takes only even values, so it never reaches
65535 and `splay += 10` wraps past the bound — the claimed `⌈T/S⌉` poll
bound fails. -/
theorem waitPodReadyState_wraparound_exceeds_ceil_bound :
    (65535 % 65536 + 9) / 10 = 6554
    ∧ waitPodReadyState (fun _ => true) (fun _ => Except.ok []) oaMaxWait podA 6555
      = none := by
  refine ⟨rfl, ?_⟩
  exact waitAux_wrap_never_exits (fun _ => true) (fun _ => Except.ok []) podA
    (fun _ => rfl) 6555 0 0 none (by decide) (by decide)
